import Mathlib

/-!
# MobileSimulator (src/script.js): a shallow embedding

The controller class `MobileSimulator` of `src/script.js` is embedded as pure
functions over an explicit record of the DOM facets it reads and writes.

* JavaScript strings are Lean `String`s (sequences of Unicode scalar values; the
  pattern and the literals of the source are ASCII); `trim` and `startsWith` are
  defined on the character list.
* The regular expression literal of `isValidUrl` is an abstract syntax tree of
  type `Regex`, run by a derivative matcher (`Regex.test`), which is proved
  equivalent to the declarative semantics `Regex.Matches`.
* The browser `URL` constructor is not code of the repository: it is a
  parameter `parseUrl : String → Option String` giving the `protocol` of the
  parsed URL, or `none` when the constructor throws.
* The closures registered on the frame are defunctionalised as `Callback`s.
-/

namespace MobileSimulator

/-! ## JavaScript string primitives -/

/-- White space and line terminators stripped by `String.prototype.trim`. -/
def isJsWhitespace (c : Char) : Bool :=
  let n := c.toNat
  n == 0x09 || n == 0x0A || n == 0x0B || n == 0x0C || n == 0x0D || n == 0x20 ||
  n == 0xA0 || n == 0x1680 || (0x2000 ≤ n && n ≤ 0x200A) || n == 0x2028 ||
  n == 0x2029 || n == 0x202F || n == 0x205F || n == 0x3000 || n == 0xFEFF

/-- Character-list form of `trim`: drop white space at both ends. -/
def trimChars (l : List Char) : List Char :=
  ((l.dropWhile isJsWhitespace).reverse.dropWhile isJsWhitespace).reverse

/-- The method `String.prototype.trim`. -/
def jsTrim (s : String) : String := String.mk (trimChars s.data)

/-- The method `String.prototype.startsWith` (one argument). -/
def jsStartsWith (s start : String) : Bool := start.data.isPrefixOf s.data

/-! ## Regular expressions -/

/-- Regular expressions over characters: `never` matches nothing, `epsilon` the
empty string, `cls p` one character satisfying `p` (a literal character or a
bracketed class). -/
inductive Regex where
  | never : Regex
  | epsilon : Regex
  | cls (p : Char → Bool) : Regex
  | alt (r s : Regex) : Regex
  | seq (r s : Regex) : Regex
  | star (r : Regex) : Regex

namespace Regex

/-- Declarative semantics: `Matches r s` when the whole of `s` matches `r`. -/
inductive Matches : Regex → List Char → Prop
  | epsilon : Matches Regex.epsilon []
  | cls {p : Char → Bool} {c : Char} : p c = true → Matches (Regex.cls p) [c]
  | altL {r s : Regex} {x : List Char} : Matches r x → Matches (Regex.alt r s) x
  | altR {r s : Regex} {x : List Char} : Matches s x → Matches (Regex.alt r s) x
  | seq {r s : Regex} {x y : List Char} :
      Matches r x → Matches s y → Matches (Regex.seq r s) (x ++ y)
  | starNil {r : Regex} : Matches (Regex.star r) []
  | starCons {r : Regex} {x y : List Char} :
      Matches r x → Matches (Regex.star r) y → Matches (Regex.star r) (x ++ y)

/-- Whether the expression matches the epsilon string. -/
def nullable : Regex → Bool
  | never => false
  | epsilon => true
  | cls _ => false
  | alt r s => nullable r || nullable s
  | seq r s => nullable r && nullable s
  | star _ => true

/-- Brzozowski derivative with respect to one character. -/
def deriv : Regex → Char → Regex
  | never, _ => never
  | epsilon, _ => never
  | cls p, c => if p c then epsilon else never
  | alt r s, c => alt (deriv r c) (deriv s c)
  | seq r s, c =>
      if nullable r then alt (seq (deriv r c) s) (deriv s c) else seq (deriv r c) s
  | star r, c => seq (deriv r c) (star r)

/-- The method `RegExp.prototype.test` for a pattern anchored by `^` and `$`
(no flags): whether the whole input matches. -/
def test (r : Regex) : List Char → Bool
  | [] => nullable r
  | c :: cs => test (deriv r c) cs

/-- A literal character. -/
def chr (c : Char) : Regex := cls (fun x => x == c)

/-- A literal string. -/
def lit : List Char → Regex
  | [] => epsilon
  | c :: cs => seq (chr c) (lit cs)

/-- The quantifier `?`. -/
def opt (r : Regex) : Regex := alt r epsilon

/-- The quantifier `+`. -/
def plus (r : Regex) : Regex := seq r (star r)

/-- Exactly `n` repetitions. -/
def rep : Nat → Regex → Regex
  | 0, _ => epsilon
  | n + 1, r => seq r (rep n r)

/-- At most `n` repetitions. -/
def upTo : Nat → Regex → Regex
  | 0, _ => epsilon
  | n + 1, r => opt (seq r (upTo n r))

/-- The quantifier `{lo,hi}`. -/
def between (lo hi : Nat) (r : Regex) : Regex := seq (rep lo r) (upTo (hi - lo) r)

end Regex

/-! ## The pattern of `isValidUrl` -/

/-- The class escape `\d`. -/
def isDigit (c : Char) : Bool := decide ('0' ≤ c) && decide (c ≤ '9')

/-- The range `a-z`. -/
def isLower (c : Char) : Bool := decide ('a' ≤ c) && decide (c ≤ 'z')

/-- The class escape `\w`: letters, digits and underscore. -/
def isWord (c : Char) : Bool :=
  isLower c || (decide ('A' ≤ c) && decide (c ≤ 'Z')) || isDigit c || c == '_'

/-- The class `[\da-z\.-]`. -/
def hostCls (c : Char) : Bool := isDigit c || isLower c || c == '.' || c == '-'

/-- The class `[a-z\.]`. -/
def tldCls (c : Char) : Bool := isLower c || c == '.'

/-- The class `[\/\w \.-]`. -/
def pathCls (c : Char) : Bool := c == '/' || isWord c || c == ' ' || c == '.' || c == '-'

/-- The literal
`/^(https?:\/\/)?([\da-z\.-]+)\.([a-z\.]{2,6})([\/\w \.-]*)*\/?$/`
of `isValidUrl`, group by group. -/
def urlPattern : Regex :=
  Regex.seq (Regex.opt (Regex.seq (Regex.lit "http".data)
      (Regex.seq (Regex.opt (Regex.chr 's')) (Regex.lit "://".data))))
    (Regex.seq (Regex.plus (Regex.cls hostCls))
      (Regex.seq (Regex.chr '.')
        (Regex.seq (Regex.between 2 6 (Regex.cls tldCls))
          (Regex.seq (Regex.star (Regex.star (Regex.cls pathCls)))
            (Regex.opt (Regex.chr '/'))))))

/-- The method `isValidUrl(string)`. `parseUrl` stands for `new URL(string)`:
`some protocol` when it succeeds, `none` when it throws. -/
def isValidUrl (parseUrl : String → Option String) (string : String) : Bool :=
  match parseUrl string with
  | some protocol => protocol == "http:" || protocol == "https:"
  | Option.none => Regex.test urlPattern string.data

/-! ## The widget state -/

/-- The method `classList.add(...tokens)`: append each token not already present. -/
def classListAdd (classList tokens : List String) : List String :=
  tokens.foldl (fun acc t => if t ∈ acc then acc else acc ++ [t]) classList

/-- The method `classList.remove(...tokens)`. -/
def classListRemove (classList tokens : List String) : List String :=
  classList.filter (fun t => !(tokens.contains t))

/-- A notification element appended to `#notification-container`. -/
structure NotificationEl where
  classList : List String
  textContent : String
deriving DecidableEq

/-- The two closure bodies which `loadUrl` registers on the frame: the load
handler (lines 92-95, 105-108) and the error handler (lines 98-102, 111-115). -/
inductive Callback where
  | loaded : Callback
  | failed : Callback
deriving DecidableEq

/-- The fields of the controller and the facets of the page it touches. -/
structure Simulator where
  /-- Field `this.currentUrl`. -/
  currentUrl : String
  /-- Value of `this.urlInput`. -/
  urlInputValue : String
  /-- Class list of `this.loadIcon`. -/
  loadIconClasses : List String
  /-- Value last assigned to `this.mobileFrame.src`. -/
  frameSrc : String
  /-- Class list of `this.mobileFrame`. -/
  frameClasses : List String
  /-- Property `this.mobileFrame.onload`. -/
  frameOnload : Option Callback
  /-- Property `this.mobileFrame.onerror`. -/
  frameOnerror : Option Callback
  /-- Listeners added by `addEventListener("load", ...)`, oldest first. -/
  frameLoadListeners : List Callback
  /-- Listeners added by `addEventListener("error", ...)`, oldest first. -/
  frameErrorListeners : List Callback
  /-- Inline style `this.placeholder.style.display`. -/
  placeholderDisplay : String
  /-- Markup `this.fullscreenBtn.innerHTML`. -/
  fullscreenBtnHTML : String
  /-- Whether `document.fullscreenElement` is non-null. -/
  fullscreenElement : Bool
  /-- Elements appended to `#notification-container`, oldest first. -/
  notifications : List NotificationEl
deriving DecidableEq

/-- The method `showNotification(message, type)`: the element it builds and
appends. The later timed removal is not part of the call. Call sites that
leave `type` out pass its default, `"success"`. -/
def showNotification (st : Simulator) (message : String) (type : String) : Simulator :=
  let notification : NotificationEl := { classList := ["notification"], textContent := message }
  let notification :=
    if type = "error" then
      { notification with classList := classListAdd notification.classList ["error"] }
    else notification
  { st with notifications := st.notifications ++ [notification] }

/-- The method `showLoading()`. -/
def showLoading (st : Simulator) : Simulator :=
  let st := { st with loadIconClasses := classListRemove st.loadIconClasses ["bi-arrow-right"] }
  let added := classListAdd st.loadIconClasses ["bi-arrow-clockwise", "animate-spin-slow"]
  { st with loadIconClasses := added }

/-- The method `hideLoading()`. -/
def hideLoading (st : Simulator) : Simulator :=
  let removed := classListRemove st.loadIconClasses ["bi-arrow-clockwise", "animate-spin-slow"]
  let st := { st with loadIconClasses := removed }
  { st with loadIconClasses := classListAdd st.loadIconClasses ["bi-arrow-right"] }

/-- The method `showPlaceholder()`. -/
def showPlaceholder (st : Simulator) : Simulator :=
  let st := { st with placeholderDisplay := "flex" }
  { st with frameClasses := classListRemove st.frameClasses ["active"] }

/-- Run one registered closure. -/
def runCallback (st : Simulator) : Callback → Simulator
  | Callback.loaded =>
      let st := hideLoading st
      showNotification st "Site carregado com sucesso!" "success"
  | Callback.failed =>
      let st := hideLoading st
      let st := showNotification st "Erro ao carregar o site. Verifique a URL." "error"
      showPlaceholder st

/-- The normalisation step of `loadUrl` (lines 69-72) applied to the trimmed text. -/
def normalizeUrl (url : String) : String :=
  if !jsStartsWith url "http://" && !jsStartsWith url "https://" then "https://" ++ url
  else url

/-- The method `loadUrl()`. -/
def loadUrl (parseUrl : String → Option String) (st : Simulator) : Simulator :=
  let url := jsTrim st.urlInputValue
  if url = "" then
    showNotification st "Digite uma URL válida" "error"
  else
    let url := normalizeUrl url
    if !isValidUrl parseUrl url then
      showNotification st "URL inválida. Tente: google.com ou https://google.com" "error"
    else
      let st := showLoading st
      let st := { st with frameSrc := url }
      let st := { st with currentUrl := url }
      let st := { st with placeholderDisplay := "none" }
      let st := { st with frameClasses := classListAdd st.frameClasses ["active"] }
      let st := { st with frameOnload := some Callback.loaded }
      let st := { st with frameOnerror := some Callback.failed }
      let st := { st with frameLoadListeners := st.frameLoadListeners ++ [Callback.loaded] }
      { st with frameErrorListeners := st.frameErrorListeners ++ [Callback.failed] }

/-- The method `refreshPage()`. -/
def refreshPage (st : Simulator) : Simulator :=
  if st.currentUrl ≠ "" then
    let st := { st with frameSrc := st.currentUrl }
    showNotification st "Página atualizada!" "success"
  else
    showNotification st "Nenhuma URL carregada para atualizar" "error"

/-- Markup written when fullscreen is requested (line 159). -/
def exitFullscreenMarkup : String :=
  "<i class=\"bi bi-fullscreen-exit text-lg group-hover:scale-110 transition-transform text-accent-300 group-hover:text-white\"></i><span class=\"font-medium\">Sair</span>"

/-- Markup written when fullscreen is left (line 162). -/
def enterFullscreenMarkup : String :=
  "<i class=\"bi bi-arrows-fullscreen text-lg group-hover:scale-110 transition-transform text-accent-300 group-hover:text-white\"></i><span class=\"font-medium\">Fullscreen</span>"

/-- The method `toggleFullscreen()`. The calls `requestFullscreen()` and
`exitFullscreen()` are taken to succeed and to switch the fullscreen state of
the document. -/
def toggleFullscreen (st : Simulator) : Simulator :=
  if !st.fullscreenElement then
    let st := { st with fullscreenElement := true }
    { st with fullscreenBtnHTML := exitFullscreenMarkup }
  else
    let st := { st with fullscreenElement := false }
    { st with fullscreenBtnHTML := enterFullscreenMarkup }

/-- The method `handleKeyboard(e)`, by the value of `e.key`. -/
def handleKeyboard (st : Simulator) (key : String) : Simulator :=
  if key = "F5" then refreshPage st
  else if key = "F11" then toggleFullscreen st
  else st

/-- Handlers run by a `load` event on the frame: the `onload` property first
(it is assigned before the first listener is added), then the listeners. -/
def loadHandlers (st : Simulator) : List Callback :=
  st.frameOnload.toList ++ st.frameLoadListeners

/-- Handlers run by an `error` event on the frame. -/
def errorHandlers (st : Simulator) : List Callback :=
  st.frameOnerror.toList ++ st.frameErrorListeners

/-- Dispatch of a `load` event on the frame. -/
def dispatchLoad (st : Simulator) : Simulator :=
  (loadHandlers st).foldl runCallback st

/-- Dispatch of an `error` event on the frame. -/
def dispatchError (st : Simulator) : Simulator :=
  (errorHandlers st).foldl runCallback st

/-- What can happen to the widget: the user actions bound in `bindEvents`, the
frame signals, and the document leaving fullscreen by itself. -/
inductive Event where
  | typeUrl (text : String) : Event
  | clickLoad : Event
  | keypressUrl (key : String) : Event
  | clickExample (url : String) : Event
  | clickRefresh : Event
  | clickFullscreen : Event
  | keydown (key : String) : Event
  | frameLoad : Event
  | frameError : Event
  | fullscreenLeft : Event

/-- One event applied to the widget. -/
def step (parseUrl : String → Option String) (st : Simulator) : Event → Simulator
  | Event.typeUrl text => { st with urlInputValue := text }
  | Event.clickLoad => loadUrl parseUrl st
  | Event.keypressUrl key => if key = "Enter" then loadUrl parseUrl st else st
  | Event.clickExample url => loadUrl parseUrl { st with urlInputValue := url }
  | Event.clickRefresh => refreshPage st
  | Event.clickFullscreen => toggleFullscreen st
  | Event.keydown key => handleKeyboard st key
  | Event.frameLoad => dispatchLoad st
  | Event.frameError => dispatchError st
  | Event.fullscreenLeft => { st with fullscreenElement := false }

/-- A sequence of events applied in order. -/
def run (parseUrl : String → Option String) (st : Simulator) (events : List Event) :
    Simulator :=
  events.foldl (step parseUrl) st

/-- Whether the placeholder is displayed. -/
def placeholderVisible (st : Simulator) : Bool := st.placeholderDisplay != "none"

/-- Whether the frame carries the class `active`. -/
def frameActive (st : Simulator) : Bool := st.frameClasses.contains "active"

/-- The element built by `showNotification(message, "error")`. -/
def errorNote (message : String) : NotificationEl :=
  { classList := ["notification", "error"], textContent := message }

/-- The element built by `showNotification(message)`. -/
def successNote (message : String) : NotificationEl :=
  { classList := ["notification"], textContent := message }

/-- Whether `loadUrl` called in this state passes both of its checks (the
trimmed input is non-empty and its normalised form passes `isValidUrl`). -/
def loadAccepted (parseUrl : String → Option String) (st : Simulator) : Bool :=
  jsTrim st.urlInputValue != "" &&
    isValidUrl parseUrl (normalizeUrl (jsTrim st.urlInputValue))

/-- Number of accepted `loadUrl` calls which one event makes (0 or 1). -/
def acceptedBy (parseUrl : String → Option String) (st : Simulator) : Event → Nat
  | Event.clickLoad => if loadAccepted parseUrl st then 1 else 0
  | Event.keypressUrl key =>
      if key = "Enter" then (if loadAccepted parseUrl st then 1 else 0) else 0
  | Event.clickExample url =>
      if loadAccepted parseUrl { st with urlInputValue := url } then 1 else 0
  | _ => 0

/-- Number of accepted `loadUrl` calls made in the course of a history. -/
def acceptedLoads (parseUrl : String → Option String) (st : Simulator) : List Event → Nat
  | [] => 0
  | e :: es => acceptedBy parseUrl st e + acceptedLoads parseUrl (step parseUrl st e) es

/-- Handlers the frame holds per signal after `n` accepted `loadUrl` calls:
none before the first, then the property handler and one listener per call. -/
def handlerRuns (n : Nat) : Nat := if n = 0 then 0 else n + 1

/-- The frame holds the handlers of `k` accepted `loadUrl` calls: `k` listeners
per signal and, once `k` is positive, the `onload` and `onerror` properties. -/
def HandlersFor (k : Nat) (st : Simulator) : Prop :=
  st.frameLoadListeners = List.replicate k Callback.loaded ∧
  st.frameErrorListeners = List.replicate k Callback.failed ∧
  st.frameOnload = (if k = 0 then Option.none else some Callback.loaded) ∧
  st.frameOnerror = (if k = 0 then Option.none else some Callback.failed)

/-- Modelled from the spec: the page markup is not under src, so the facets the
constructor finds are taken from the spec ("state initializes at startup (empty
URL, placeholder visible, idle icon)"); `currentUrl` is set by the constructor. -/
def initialState : Simulator :=
  { currentUrl := ""
    urlInputValue := ""
    loadIconClasses := ["bi-arrow-right"]
    frameSrc := ""
    frameClasses := []
    frameOnload := Option.none
    frameOnerror := Option.none
    frameLoadListeners := []
    frameErrorListeners := []
    placeholderDisplay := ""
    fullscreenBtnHTML := enterFullscreenMarkup
    fullscreenElement := false
    notifications := [] }

/-! ## The fallback pattern in the words of the spec -/

/-- Input with an optional `http://` or `https://` scheme removed. -/
def stripScheme (s : List Char) : List Char :=
  if "https://".data.isPrefixOf s then s.drop 8
  else if "http://".data.isPrefixOf s then s.drop 7
  else s

/-- The last of the dot-separated labels of a host. -/
def finalLabel (host : List Char) : List Char :=
  (host.reverse.takeWhile (fun c => c != '.')).reverse

/-- Spec wording of the fallback ("scheme optional, one or more label segments,
a 2–6 character final label, optional path"), read permissively: after the
optional scheme comes a non-empty host, running up to the first `/` (where the
path, if any, starts), whose last dot-separated label has 2 to 6 characters. No
constraint is put on the characters of labels or path. -/
def domainLike (s : List Char) : Bool :=
  let host := (stripScheme s).takeWhile (fun c => c != '/')
  !host.isEmpty && decide (2 ≤ (finalLabel host).length) && decide ((finalLabel host).length ≤ 6)

/-- What the pattern of `isValidUrl` accepts, piece by piece: an optional scheme,
one or more characters of `[\da-z\.-]`, a dot, 2 to 6 characters of `[a-z\.]`,
then any number of characters of `[\/\w \.-]`. -/
def PatternShape (s : List Char) : Prop :=
  ∃ scheme host tld path : List Char,
    s = scheme ++ (host ++ ('.' :: (tld ++ path))) ∧
    (scheme = [] ∨ scheme = "http://".data ∨ scheme = "https://".data) ∧
    host ≠ [] ∧ (∀ c ∈ host, hostCls c = true) ∧
    2 ≤ tld.length ∧ tld.length ≤ 6 ∧ (∀ c ∈ tld, tldCls c = true) ∧
    (∀ c ∈ path, pathCls c = true)


set_option maxRecDepth 20000

/-! ## Correctness of the matcher -/

namespace Regex

theorem nullable_of_matches {r : Regex} {s : List Char} (h : Matches r s) :
    s = [] → nullable r = true := by
  induction h with
  | epsilon => intro _; rfl
  | cls _ => intro h; cases h
  | altL _ ih => intro h; simp [nullable, ih h]
  | altR _ ih => intro h; simp [nullable, ih h]
  | seq _ _ ih₁ ih₂ =>
      intro h
      obtain ⟨hx, hy⟩ := List.append_eq_nil.mp h
      simp [nullable, ih₁ hx, ih₂ hy]
  | starNil => intro _; rfl
  | starCons _ _ _ _ => intro _; rfl

theorem matches_nil_of_nullable : ∀ {r : Regex}, nullable r = true → Matches r []
  | never, h => by simp [nullable] at h
  | epsilon, _ => Matches.epsilon
  | cls _, h => by simp [nullable] at h
  | alt r s, h => by
      simp only [nullable, Bool.or_eq_true] at h
      rcases h with h | h
      · exact Matches.altL (matches_nil_of_nullable h)
      · exact Matches.altR (matches_nil_of_nullable h)
  | seq r s, h => by
      simp only [nullable, Bool.and_eq_true] at h
      exact Matches.seq (matches_nil_of_nullable h.1) (matches_nil_of_nullable h.2)
  | star _, _ => Matches.starNil

theorem nullable_iff (r : Regex) : nullable r = true ↔ Matches r [] :=
  ⟨matches_nil_of_nullable, fun h => nullable_of_matches h rfl⟩

theorem matches_of_deriv : ∀ {r : Regex} {c : Char} {s : List Char},
    Matches (deriv r c) s → Matches r (c :: s)
  | never, _, _, h => by cases h
  | epsilon, _, _, h => by cases h
  | cls p, c, s, h => by
      by_cases hp : p c = true
      · simp only [deriv, hp, if_true] at h
        cases h
        exact Matches.cls hp
      · simp only [deriv, hp] at h
        cases h
  | alt r₁ r₂, c, s, h => by
      cases h with
      | altL h => exact Matches.altL (matches_of_deriv h)
      | altR h => exact Matches.altR (matches_of_deriv h)
  | seq r₁ r₂, c, s, h => by
      have key : ∀ t, Matches (seq (deriv r₁ c) r₂) t → Matches (seq r₁ r₂) (c :: t) := by
        intro t ht
        cases ht with
        | seq hx hy => exact Matches.seq (matches_of_deriv hx) hy
      by_cases hn : nullable r₁ = true
      · simp only [deriv, hn, if_true] at h
        cases h with
        | altL h => exact key _ h
        | altR h =>
            exact Matches.seq (x := []) (matches_nil_of_nullable hn) (matches_of_deriv h)
      · simp only [deriv, hn] at h
        exact key _ h
  | star r, c, s, h => by
      cases h with
      | seq hx hy => exact Matches.starCons (matches_of_deriv hx) hy

theorem deriv_of_matches {r : Regex} {t : List Char} (h : Matches r t) :
    ∀ (c : Char) (s : List Char), t = c :: s → Matches (deriv r c) s := by
  induction h with
  | epsilon => intro c s h; cases h
  | @cls p d hp =>
      intro c s h
      cases h
      simp only [deriv, hp, if_true]
      exact Matches.epsilon
  | altL _ ih => intro c s h; exact Matches.altL (ih c s h)
  | altR _ ih => intro c s h; exact Matches.altR (ih c s h)
  | @seq r₁ r₂ x y hx hy ih₁ ih₂ =>
      intro c s h
      cases x with
      | nil =>
          have hn : nullable r₁ = true := nullable_of_matches hx rfl
          simp only [deriv, hn, if_true]
          exact Matches.altR (ih₂ c s h)
      | cons a x =>
          simp only [List.cons_append, List.cons.injEq] at h
          obtain ⟨rfl, rfl⟩ := h
          have h₁ : Matches (seq (deriv r₁ a) r₂) (x ++ y) := Matches.seq (ih₁ a x rfl) hy
          by_cases hn : nullable r₁ = true
          · simp only [deriv, hn, if_true]
            exact Matches.altL h₁
          · simp only [deriv, hn]
            exact h₁
  | starNil => intro c s h; cases h
  | @starCons r x y hx hy ih₁ ih₂ =>
      intro c s h
      cases x with
      | nil => exact ih₂ c s h
      | cons a x =>
          simp only [List.cons_append, List.cons.injEq] at h
          obtain ⟨rfl, rfl⟩ := h
          exact Matches.seq (ih₁ a x rfl) hy

theorem deriv_iff (r : Regex) (c : Char) (s : List Char) :
    Matches (deriv r c) s ↔ Matches r (c :: s) :=
  ⟨matches_of_deriv, fun h => deriv_of_matches h c s rfl⟩

/-- The matcher decides the declarative semantics. -/
theorem test_iff (r : Regex) (s : List Char) : test r s = true ↔ Matches r s := by
  induction s generalizing r with
  | nil => exact nullable_iff r
  | cons c cs ih => exact (ih (deriv r c)).trans (deriv_iff r c cs)


theorem matches_seq_iff (r₁ r₂ : Regex) (s : List Char) :
    Matches (seq r₁ r₂) s ↔ ∃ x y, s = x ++ y ∧ Matches r₁ x ∧ Matches r₂ y := by
  constructor
  · intro h
    cases h with
    | seq hx hy => exact ⟨_, _, rfl, hx, hy⟩
  · rintro ⟨x, y, rfl, hx, hy⟩
    exact Matches.seq hx hy

theorem matches_cls_iff (p : Char → Bool) (s : List Char) :
    Matches (cls p) s ↔ ∃ c, s = [c] ∧ p c = true := by
  constructor
  · intro h
    cases h with
    | cls hp => exact ⟨_, rfl, hp⟩
  · rintro ⟨c, rfl, hp⟩
    exact Matches.cls hp

theorem matches_chr_iff (c : Char) (s : List Char) : Matches (chr c) s ↔ s = [c] := by
  unfold chr
  rw [matches_cls_iff]
  constructor
  · rintro ⟨d, rfl, hd⟩
    simp only [beq_iff_eq] at hd
    rw [hd]
  · rintro rfl
    exact ⟨c, rfl, by simp⟩

theorem matches_empty_iff (s : List Char) : Matches epsilon s ↔ s = [] := by
  constructor
  · intro h
    cases h
    rfl
  · rintro rfl
    exact Matches.epsilon

theorem matches_opt_iff (r : Regex) (s : List Char) :
    Matches (opt r) s ↔ Matches r s ∨ s = [] := by
  unfold opt
  constructor
  · intro h
    cases h with
    | altL h => exact Or.inl h
    | altR h => exact Or.inr ((matches_empty_iff s).mp h)
  · rintro (h | rfl)
    · exact Matches.altL h
    · exact Matches.altR Matches.epsilon

theorem matches_lit_iff (l s : List Char) : Matches (lit l) s ↔ s = l := by
  induction l generalizing s with
  | nil => exact matches_empty_iff s
  | cons c cs ih =>
      simp only [lit, matches_seq_iff, matches_chr_iff, ih]
      constructor
      · rintro ⟨x, y, rfl, rfl, rfl⟩
        rfl
      · rintro rfl
        exact ⟨[c], cs, rfl, rfl, rfl⟩

/-- Chars of a word matched by a starred language all lie in `q` once every
word of the base language does. -/
theorem all_of_matches_star {r : Regex} {q : Char → Bool}
    (hr : ∀ x, Matches r x → ∀ c ∈ x, q c = true) {e : Regex} {s : List Char}
    (h : Matches e s) : e = star r → ∀ c ∈ s, q c = true := by
  induction h with
  | epsilon => intro _ c hc; cases hc
  | cls _ => intro h; cases h
  | altL _ _ => intro h; cases h
  | altR _ _ => intro h; cases h
  | seq _ _ _ _ => intro h; cases h
  | starNil => intro _ c hc; cases hc
  | starCons hx _ _ ih₂ =>
      intro h c hc
      cases h
      rcases List.mem_append.mp hc with hc | hc
      · exact hr _ hx c hc
      · exact ih₂ rfl c hc

theorem matches_star_cls_of_all (p : Char → Bool) :
    ∀ s : List Char, (∀ c ∈ s, p c = true) → Matches (star (cls p)) s
  | [], _ => Matches.starNil
  | c :: cs, h =>
      Matches.starCons (x := [c]) (Matches.cls (h c (List.mem_cons_self c cs)))
        (matches_star_cls_of_all p cs (fun d hd => h d (List.mem_cons_of_mem c hd)))

theorem matches_star_cls_iff (p : Char → Bool) (s : List Char) :
    Matches (star (cls p)) s ↔ ∀ c ∈ s, p c = true := by
  constructor
  · intro h
    refine all_of_matches_star (r := cls p) ?_ h rfl
    intro x hx c hc
    obtain ⟨d, rfl, hd⟩ := (matches_cls_iff p x).mp hx
    rw [List.mem_singleton.mp hc]
    exact hd
  · exact matches_star_cls_of_all p s

theorem matches_star_star_cls_iff (p : Char → Bool) (s : List Char) :
    Matches (star (star (cls p))) s ↔ ∀ c ∈ s, p c = true := by
  constructor
  · intro h
    exact all_of_matches_star (r := star (cls p))
      (fun x hx => (matches_star_cls_iff p x).mp hx) h rfl
  · intro h
    have := Matches.starCons ((matches_star_cls_iff p s).mpr h) (Matches.starNil (r := star (cls p)))
    simpa using this

theorem matches_plus_cls_iff (p : Char → Bool) (s : List Char) :
    Matches (plus (cls p)) s ↔ s ≠ [] ∧ ∀ c ∈ s, p c = true := by
  unfold plus
  simp only [matches_seq_iff, matches_cls_iff, matches_star_cls_iff]
  constructor
  · rintro ⟨x, y, rfl, ⟨c, rfl, hc⟩, hy⟩
    refine ⟨by simp, ?_⟩
    intro d hd
    rcases List.mem_cons.mp hd with rfl | hd
    · exact hc
    · exact hy d hd
  · rintro ⟨hne, h⟩
    cases s with
    | nil => exact absurd rfl hne
    | cons c cs =>
        exact ⟨[c], cs, rfl, ⟨c, rfl, h c (List.mem_cons_self c cs)⟩,
          fun d hd => h d (List.mem_cons_of_mem c hd)⟩

theorem matches_rep_cls_iff (p : Char → Bool) (n : Nat) (s : List Char) :
    Matches (rep n (cls p)) s ↔ s.length = n ∧ ∀ c ∈ s, p c = true := by
  induction n generalizing s with
  | zero =>
      simp only [rep, matches_empty_iff]
      constructor
      · rintro rfl
        exact ⟨rfl, fun c hc => by cases hc⟩
      · rintro ⟨h, _⟩
        exact List.length_eq_zero.mp h
  | succ n ih =>
      simp only [rep, matches_seq_iff, matches_cls_iff, ih]
      constructor
      · rintro ⟨x, y, rfl, ⟨c, rfl, hc⟩, hlen, hy⟩
        refine ⟨by simp [hlen], ?_⟩
        intro d hd
        rcases List.mem_cons.mp hd with rfl | hd
        · exact hc
        · exact hy d hd
      · rintro ⟨hlen, h⟩
        cases s with
        | nil => simp at hlen
        | cons c cs =>
            exact ⟨[c], cs, rfl, ⟨c, rfl, h c (List.mem_cons_self c cs)⟩,
              by simpa using hlen, fun d hd => h d (List.mem_cons_of_mem c hd)⟩

theorem matches_upTo_cls_iff (p : Char → Bool) (n : Nat) (s : List Char) :
    Matches (upTo n (cls p)) s ↔ s.length ≤ n ∧ ∀ c ∈ s, p c = true := by
  induction n generalizing s with
  | zero =>
      simp only [upTo, matches_empty_iff]
      constructor
      · rintro rfl
        exact ⟨le_refl _, fun c hc => by cases hc⟩
      · rintro ⟨h, _⟩
        exact List.length_eq_zero.mp (Nat.le_zero.mp h)
  | succ n ih =>
      simp only [upTo, matches_opt_iff, matches_seq_iff, matches_cls_iff, ih]
      constructor
      · rintro (⟨x, y, rfl, ⟨c, rfl, hc⟩, hlen, hy⟩ | rfl)
        · refine ⟨by simpa using hlen, ?_⟩
          intro d hd
          rcases List.mem_cons.mp hd with rfl | hd
          · exact hc
          · exact hy d hd
        · exact ⟨Nat.zero_le _, fun c hc => by cases hc⟩
      · rintro ⟨hlen, h⟩
        cases s with
        | nil => exact Or.inr rfl
        | cons c cs =>
            exact Or.inl ⟨[c], cs, rfl, ⟨c, rfl, h c (List.mem_cons_self c cs)⟩,
              by simpa using hlen, fun d hd => h d (List.mem_cons_of_mem c hd)⟩

theorem matches_between_cls_iff (p : Char → Bool) (lo hi : Nat) (hle : lo ≤ hi)
    (s : List Char) :
    Matches (between lo hi (cls p)) s ↔
      lo ≤ s.length ∧ s.length ≤ hi ∧ ∀ c ∈ s, p c = true := by
  unfold between
  simp only [matches_seq_iff, matches_rep_cls_iff, matches_upTo_cls_iff]
  constructor
  · rintro ⟨x, y, rfl, ⟨hx, hpx⟩, hy, hpy⟩
    refine ⟨by simp [hx], by simp only [List.length_append]; omega, ?_⟩
    intro c hc
    rcases List.mem_append.mp hc with hc | hc
    · exact hpx c hc
    · exact hpy c hc
  · rintro ⟨h₁, h₂, hp⟩
    refine ⟨s.take lo, s.drop lo, (List.take_append_drop lo s).symm,
      ⟨by simp [h₁], fun c hc => hp c (List.mem_of_mem_take hc)⟩,
      by simp only [List.length_drop]; omega, fun c hc => hp c (List.mem_of_mem_drop hc)⟩

end Regex

open Regex

theorem matches_scheme_iff (a : List Char) :
    Matches (opt (seq (lit "http".data) (seq (opt (chr 's')) (lit "://".data)))) a ↔
      (a = [] ∨ a = "http://".data ∨ a = "https://".data) := by
  simp only [matches_opt_iff, matches_seq_iff, matches_lit_iff, matches_chr_iff]
  constructor
  · rintro (⟨x, y, rfl, rfl, u, v, rfl, (rfl | rfl), rfl⟩ | rfl)
    · exact Or.inr (Or.inr rfl)
    · exact Or.inr (Or.inl rfl)
    · exact Or.inl rfl
  · rintro (rfl | rfl | rfl)
    · exact Or.inr rfl
    · exact Or.inl ⟨"http".data, "://".data, rfl, rfl, [], "://".data, rfl, Or.inr rfl, rfl⟩
    · exact Or.inl ⟨"http".data, "s://".data, rfl, rfl, ['s'], "://".data, rfl, Or.inl rfl, rfl⟩

theorem matches_tail_iff (s : List Char) :
    Matches (seq (star (star (cls pathCls))) (opt (chr '/'))) s ↔
      ∀ c ∈ s, pathCls c = true := by
  simp only [matches_seq_iff, matches_star_star_cls_iff, matches_opt_iff, matches_chr_iff]
  constructor
  · rintro ⟨x, y, rfl, hx, (rfl | rfl)⟩
    · intro c hc
      rcases List.mem_append.mp hc with hc | hc
      · exact hx c hc
      · rw [List.mem_singleton.mp hc]
        decide
    · simpa using hx
  · intro h
    exact ⟨s, [], by simp, h, Or.inr rfl⟩

/-- The pattern of `isValidUrl` accepts exactly the strings of `PatternShape`. -/
theorem test_urlPattern_iff (s : List Char) :
    Regex.test urlPattern s = true ↔ PatternShape s := by
  rw [test_iff]
  unfold urlPattern PatternShape
  simp only [matches_seq_iff (opt _), matches_seq_iff (plus _),
    matches_plus_cls_iff, matches_seq_iff (chr _), matches_chr_iff,
    matches_seq_iff (between _ _ _), matches_between_cls_iff tldCls 2 6 (by decide),
    matches_tail_iff]
  constructor
  · rintro ⟨a, r₁, rfl, ha, h, r₂, rfl, ⟨hne, hh⟩, d, r₃, rfl, rfl, t, p, rfl, ⟨h₂, h₆, ht⟩, hp⟩
    exact ⟨a, h, t, p, rfl, (matches_scheme_iff a).mp ha, hne, hh, h₂, h₆, ht, hp⟩
  · rintro ⟨a, h, t, p, rfl, ha, hne, hh, h₂, h₆, ht, hp⟩
    exact ⟨a, _, rfl, (matches_scheme_iff a).mpr ha, h, _, rfl, ⟨hne, hh⟩, ['.'], _, rfl, rfl,
      t, p, rfl, ⟨h₂, h₆, ht⟩, hp⟩

/-! ## Class lists, notifications and trimming -/

theorem mem_classListAdd (t : String) (tokens classList : List String) :
    t ∈ classListAdd classList tokens ↔ t ∈ classList ∨ t ∈ tokens := by
  unfold classListAdd
  induction tokens generalizing classList with
  | nil => simp
  | cons a as ih =>
      rw [List.foldl_cons, ih]
      by_cases ha : a ∈ classList
      · simp only [ha, if_true, List.mem_cons]
        constructor
        · rintro (h | h)
          · exact Or.inl h
          · exact Or.inr (Or.inr h)
        · rintro (h | rfl | h)
          · exact Or.inl h
          · exact Or.inl ha
          · exact Or.inr h
      · simp only [ha, if_false, List.mem_append, List.mem_singleton, List.mem_cons]
        tauto

theorem mem_classListRemove (t : String) (tokens classList : List String) :
    t ∈ classListRemove classList tokens ↔ t ∈ classList ∧ t ∉ tokens := by
  unfold classListRemove
  simp [List.mem_filter]

theorem showNotification_error (st : Simulator) (message : String) :
    showNotification st message "error" =
      { st with notifications := st.notifications ++ [errorNote message] } := by
  simp [showNotification, errorNote, classListAdd]

theorem showNotification_success (st : Simulator) (message : String) :
    showNotification st message "success" =
      { st with notifications := st.notifications ++ [successNote message] } := by
  simp [showNotification, successNote]

theorem trimChars_eq_nil_iff (l : List Char) :
    trimChars l = [] ↔ ∀ c ∈ l, isJsWhitespace c = true := by
  unfold trimChars
  rw [List.reverse_eq_nil_iff, List.dropWhile_eq_nil_iff]
  constructor
  · intro h
    have hnil : l.dropWhile isJsWhitespace = [] := by
      by_contra hne
      have hhead := List.head_dropWhile_not isJsWhitespace l hne
      have := h _ (List.mem_reverse.mpr (List.head_mem hne))
      simp [this] at hhead
    exact List.dropWhile_eq_nil_iff.mp hnil
  · intro h
    rw [List.dropWhile_eq_nil_iff.mpr h]
    intro c hc
    simp at hc

theorem jsTrim_eq_empty_iff (s : String) :
    jsTrim s = "" ↔ ∀ c ∈ s.data, isJsWhitespace c = true := by
  rw [← trimChars_eq_nil_iff]
  unfold jsTrim
  constructor
  · intro h
    have := congrArg String.data h
    simpa using this
  · intro h
    rw [h]

theorem loadUrl_of_empty (parseUrl : String → Option String) (st : Simulator)
    (h : jsTrim st.urlInputValue = "") :
    loadUrl parseUrl st = showNotification st "Digite uma URL válida" "error" := by
  simp only [loadUrl, h, if_true]

theorem loadUrl_of_invalid (parseUrl : String → Option String) (st : Simulator)
    (hne : jsTrim st.urlInputValue ≠ "")
    (hv : isValidUrl parseUrl (normalizeUrl (jsTrim st.urlInputValue)) = false) :
    loadUrl parseUrl st =
      showNotification st "URL inválida. Tente: google.com ou https://google.com" "error" := by
  simp only [loadUrl, hne, if_false, hv, Bool.not_false, if_true]

theorem loadUrl_of_valid (parseUrl : String → Option String) (st : Simulator)
    (hne : jsTrim st.urlInputValue ≠ "")
    (hv : isValidUrl parseUrl (normalizeUrl (jsTrim st.urlInputValue)) = true) :
    loadUrl parseUrl st =
      { showLoading st with
          frameSrc := normalizeUrl (jsTrim st.urlInputValue)
          currentUrl := normalizeUrl (jsTrim st.urlInputValue)
          placeholderDisplay := "none"
          frameClasses := classListAdd st.frameClasses ["active"]
          frameOnload := some Callback.loaded
          frameOnerror := some Callback.failed
          frameLoadListeners := st.frameLoadListeners ++ [Callback.loaded]
          frameErrorListeners := st.frameErrorListeners ++ [Callback.failed] } := by
  simp [loadUrl, hne, hv, showLoading]

/-! ## Claims about `loadUrl` -/

/-- C1. A rejected `loadUrl` (empty trimmed input, or normalised input failing
`isValidUrl`) leaves every field as it was and appends exactly one error
notification with the matching text; the trimmed input is empty exactly for
empty or whitespace-only input. -/
theorem loadUrl_rejected_state_unchanged (parseUrl : String → Option String)
    (st : Simulator) :
    (jsTrim st.urlInputValue = "" ↔ ∀ c ∈ st.urlInputValue.data, isJsWhitespace c = true) ∧
    (jsTrim st.urlInputValue = "" →
      loadUrl parseUrl st =
        { st with notifications := st.notifications ++ [errorNote "Digite uma URL válida"] }) ∧
    (jsTrim st.urlInputValue ≠ "" →
      isValidUrl parseUrl (normalizeUrl (jsTrim st.urlInputValue)) = false →
      loadUrl parseUrl st =
        { st with notifications := st.notifications ++
            [errorNote "URL inválida. Tente: google.com ou https://google.com"] }) := by
  refine ⟨jsTrim_eq_empty_iff _, ?_, ?_⟩
  · intro h
    simp only [loadUrl, h, if_true, showNotification_error]
  · intro hne hv
    simp only [loadUrl, hne, if_false, hv, Bool.not_false, if_true, showNotification_error]

theorem rejected_inputs_witness :
    (jsTrim "  \t" = "" ∧
      loadUrl (fun _ => Option.none) { initialState with urlInputValue := "  \t" } =
        { initialState with
            urlInputValue := "  \t"
            notifications := [errorNote "Digite uma URL válida"] }) ∧
    (jsTrim "not a url!!" ≠ "" ∧
      isValidUrl (fun _ => Option.none) (normalizeUrl (jsTrim "not a url!!")) = false ∧
      loadUrl (fun _ => Option.none) { initialState with urlInputValue := "not a url!!" } =
        { initialState with
            urlInputValue := "not a url!!"
            notifications :=
              [errorNote "URL inválida. Tente: google.com ou https://google.com"] }) :=
  ⟨⟨by decide,
      (loadUrl_rejected_state_unchanged (fun _ => Option.none)
        { initialState with urlInputValue := "  \t" }).2.1 (by decide)⟩,
    ⟨by decide, by decide,
      (loadUrl_rejected_state_unchanged (fun _ => Option.none)
        { initialState with urlInputValue := "not a url!!" }).2.2 (by decide) (by decide)⟩⟩

theorem jsStartsWith_https_append (t : String) :
    jsStartsWith ("https://" ++ t) "https://" = true := by
  simp [jsStartsWith, String.data_append]

theorem isValidUrl_congr (p q : String → Option String) (u : String) (h : q u = p u) :
    isValidUrl q u = isValidUrl p u := by
  simp only [isValidUrl, h]

/-- C2. For non-empty trimmed input: without a scheme the normalised string is
`https://` followed by the trimmed text (so it starts with `https://`); with
a scheme it is the trimmed text itself; that string is what `loadUrl` validates,
and on acceptance assigns to the frame source and to `currentUrl`; the result of
`loadUrl` depends on the URL parser only through its answer on the normalised
string, so validation is never applied to the raw input. -/
theorem loadUrl_validates_normalized (parseUrl : String → Option String) (st : Simulator)
    (hne : jsTrim st.urlInputValue ≠ "") :
    (jsStartsWith (jsTrim st.urlInputValue) "http://" = false →
      jsStartsWith (jsTrim st.urlInputValue) "https://" = false →
      normalizeUrl (jsTrim st.urlInputValue) = "https://" ++ jsTrim st.urlInputValue ∧
      jsStartsWith (normalizeUrl (jsTrim st.urlInputValue)) "https://" = true) ∧
    (jsStartsWith (jsTrim st.urlInputValue) "http://" = true ∨
        jsStartsWith (jsTrim st.urlInputValue) "https://" = true →
      normalizeUrl (jsTrim st.urlInputValue) = jsTrim st.urlInputValue) ∧
    (isValidUrl parseUrl (normalizeUrl (jsTrim st.urlInputValue)) = true →
      (loadUrl parseUrl st).frameSrc = normalizeUrl (jsTrim st.urlInputValue) ∧
      (loadUrl parseUrl st).currentUrl = normalizeUrl (jsTrim st.urlInputValue)) ∧
    (isValidUrl parseUrl (normalizeUrl (jsTrim st.urlInputValue)) = false →
      (loadUrl parseUrl st).frameSrc = st.frameSrc ∧
      (loadUrl parseUrl st).currentUrl = st.currentUrl) ∧
    (∀ other : String → Option String,
      other (normalizeUrl (jsTrim st.urlInputValue)) =
        parseUrl (normalizeUrl (jsTrim st.urlInputValue)) →
      loadUrl other st = loadUrl parseUrl st) := by
  refine ⟨?_, ?_, ?_, ?_, ?_⟩
  · intro h₁ h₂
    have hn : normalizeUrl (jsTrim st.urlInputValue) = "https://" ++ jsTrim st.urlInputValue := by
      simp [normalizeUrl, h₁, h₂]
    exact ⟨hn, by rw [hn]; exact jsStartsWith_https_append _⟩
  · rintro (h | h) <;> simp [normalizeUrl, h]
  · intro hv
    simp [loadUrl, hne, hv]
  · intro hv
    simp [loadUrl, hne, hv, showNotification_error]
  · intro other h
    simp only [loadUrl, isValidUrl_congr parseUrl other _ h]

theorem normalized_google_witness :
    jsTrim " google.com " ≠ "" ∧
    normalizeUrl (jsTrim " google.com ") = "https://" ++ jsTrim " google.com " ∧
    (loadUrl (fun u => if u = "https://google.com" then some "https:" else Option.none)
      { initialState with urlInputValue := " google.com " }).currentUrl = "https://google.com" :=
  have h := loadUrl_validates_normalized
    (fun u => if u = "https://google.com" then some "https:" else Option.none)
    { initialState with urlInputValue := " google.com " } (by decide)
  ⟨by decide, (h.1 (by decide) (by decide)).1, (h.2.2.1 (by decide)).2⟩

/-- C3. When the trimmed input is non-empty and its normalised form passes
`isValidUrl`, after `loadUrl` the icon is in the loading state (`bi-arrow-right`
absent, `bi-arrow-clockwise` and `animate-spin-slow` present), the frame source
and `currentUrl` are the normalised URL, the placeholder is hidden and the frame
carries `active`. -/
theorem loadUrl_accepted_state (parseUrl : String → Option String) (st : Simulator)
    (hne : jsTrim st.urlInputValue ≠ "")
    (hv : isValidUrl parseUrl (normalizeUrl (jsTrim st.urlInputValue)) = true) :
    "bi-arrow-right" ∉ (loadUrl parseUrl st).loadIconClasses ∧
    "bi-arrow-clockwise" ∈ (loadUrl parseUrl st).loadIconClasses ∧
    "animate-spin-slow" ∈ (loadUrl parseUrl st).loadIconClasses ∧
    (loadUrl parseUrl st).frameSrc = normalizeUrl (jsTrim st.urlInputValue) ∧
    (loadUrl parseUrl st).currentUrl = normalizeUrl (jsTrim st.urlInputValue) ∧
    (loadUrl parseUrl st).placeholderDisplay = "none" ∧
    placeholderVisible (loadUrl parseUrl st) = false ∧
    frameActive (loadUrl parseUrl st) = true := by
  simp [loadUrl, hne, hv, showLoading, mem_classListAdd, mem_classListRemove,
    placeholderVisible, frameActive]

theorem accepted_google_witness :
    jsTrim "google.com" ≠ "" ∧
    isValidUrl (fun u => if u = "https://google.com" then some "https:" else Option.none)
      (normalizeUrl (jsTrim "google.com")) = true ∧
    (loadUrl (fun u => if u = "https://google.com" then some "https:" else Option.none)
      { initialState with urlInputValue := "google.com" }).frameSrc = "https://google.com" ∧
    (loadUrl (fun u => if u = "https://google.com" then some "https:" else Option.none)
      { initialState with urlInputValue := "google.com" }).currentUrl = "https://google.com" :=
  have h := loadUrl_accepted_state
    (fun u => if u = "https://google.com" then some "https:" else Option.none)
    { initialState with urlInputValue := "google.com" } (by decide) (by decide)
  ⟨by decide, by decide, h.2.2.2.1, h.2.2.2.2.1⟩

/-! ## Mutual exclusion of placeholder and frame

The invariant is `placeholderVisible st = !frameActive st`. -/

theorem exclusive_showNotification (st : Simulator) (m t : String)
    (h : placeholderVisible st = !frameActive st) :
    placeholderVisible (showNotification st m t) = !frameActive (showNotification st m t) := by
  simpa [showNotification, placeholderVisible, frameActive] using h

theorem exclusive_runCallback (st : Simulator) (cb : Callback)
    (h : placeholderVisible st = !frameActive st) :
    placeholderVisible (runCallback st cb) = !frameActive (runCallback st cb) := by
  cases cb with
  | loaded =>
      simpa [runCallback, showNotification, hideLoading, placeholderVisible, frameActive] using h
  | failed =>
      simp [runCallback, showNotification, hideLoading, showPlaceholder, placeholderVisible,
        frameActive, mem_classListRemove]

theorem exclusive_foldl_runCallback (cbs : List Callback) (st : Simulator)
    (h : placeholderVisible st = !frameActive st) :
    placeholderVisible (cbs.foldl runCallback st) = !frameActive (cbs.foldl runCallback st) := by
  induction cbs generalizing st with
  | nil => exact h
  | cons cb cbs ih => exact ih _ (exclusive_runCallback st cb h)

theorem exclusive_loadUrl (parseUrl : String → Option String) (st : Simulator)
    (h : placeholderVisible st = !frameActive st) :
    placeholderVisible (loadUrl parseUrl st) = !frameActive (loadUrl parseUrl st) := by
  by_cases h₁ : jsTrim st.urlInputValue = ""
  · rw [loadUrl_of_empty parseUrl st h₁]
    exact exclusive_showNotification _ _ _ h
  · cases h₂ : isValidUrl parseUrl (normalizeUrl (jsTrim st.urlInputValue)) with
    | true =>
        rw [loadUrl_of_valid parseUrl st h₁ h₂]
        simp [placeholderVisible, frameActive, mem_classListAdd]
    | false =>
        rw [loadUrl_of_invalid parseUrl st h₁ h₂]
        exact exclusive_showNotification _ _ _ h

theorem exclusive_refreshPage (st : Simulator)
    (h : placeholderVisible st = !frameActive st) :
    placeholderVisible (refreshPage st) = !frameActive (refreshPage st) := by
  unfold refreshPage
  split
  · exact exclusive_showNotification _ _ _ (by simpa [placeholderVisible, frameActive] using h)
  · exact exclusive_showNotification _ _ _ h

theorem exclusive_toggleFullscreen (st : Simulator)
    (h : placeholderVisible st = !frameActive st) :
    placeholderVisible (toggleFullscreen st) = !frameActive (toggleFullscreen st) := by
  unfold toggleFullscreen
  split <;> simpa [placeholderVisible, frameActive] using h

theorem exclusive_step (parseUrl : String → Option String) (st : Simulator) (e : Event)
    (h : placeholderVisible st = !frameActive st) :
    placeholderVisible (step parseUrl st e) = !frameActive (step parseUrl st e) := by
  cases e with
  | typeUrl text => simpa [step, placeholderVisible, frameActive] using h
  | clickLoad => exact exclusive_loadUrl parseUrl st h
  | keypressUrl key =>
      simp only [step]
      split
      · exact exclusive_loadUrl parseUrl st h
      · exact h
  | clickExample url =>
      exact exclusive_loadUrl parseUrl _ (by simpa [placeholderVisible, frameActive] using h)
  | clickRefresh => exact exclusive_refreshPage st h
  | clickFullscreen => exact exclusive_toggleFullscreen st h
  | keydown key =>
      simp only [step, handleKeyboard]
      split
      · exact exclusive_refreshPage st h
      · split
        · exact exclusive_toggleFullscreen st h
        · exact h
  | frameLoad => exact exclusive_foldl_runCallback _ st h
  | frameError => exact exclusive_foldl_runCallback _ st h
  | fullscreenLeft => simpa [step, placeholderVisible, frameActive] using h

theorem exclusive_run (parseUrl : String → Option String) (events : List Event)
    (st : Simulator) (h : placeholderVisible st = !frameActive st) :
    placeholderVisible (run parseUrl st events) = !frameActive (run parseUrl st events) := by
  induction events generalizing st with
  | nil => exact h
  | cons e es ih => exact ih _ (exclusive_step parseUrl st e h)

/-- C4. From any state with the placeholder visible and the frame inactive,
after any sequence of events (loads, refreshes, fullscreen toggles, key presses,
frame load and error signals) exactly one of "placeholder visible" and "frame
active" holds. -/
theorem placeholder_xor_frame (parseUrl : String → Option String) (st : Simulator)
    (events : List Event) (hp : placeholderVisible st = true) (hf : frameActive st = false) :
    (placeholderVisible (run parseUrl st events) = true ∧
        frameActive (run parseUrl st events) = false) ∨
      (placeholderVisible (run parseUrl st events) = false ∧
        frameActive (run parseUrl st events) = true) := by
  have h := exclusive_run parseUrl events st (by rw [hp, hf]; rfl)
  cases hfa : frameActive (run parseUrl st events) with
  | false => left; rw [h, hfa]; exact ⟨rfl, rfl⟩
  | true => right; rw [h, hfa]; exact ⟨rfl, rfl⟩

theorem exclusive_events_witness :
    placeholderVisible initialState = true ∧ frameActive initialState = false ∧
    ((placeholderVisible (run (fun _ => Option.none) initialState
          [Event.clickExample "google.com", Event.frameError, Event.keydown "F5"]) = true ∧
        frameActive (run (fun _ => Option.none) initialState
          [Event.clickExample "google.com", Event.frameError, Event.keydown "F5"]) = false) ∨
      (placeholderVisible (run (fun _ => Option.none) initialState
          [Event.clickExample "google.com", Event.frameError, Event.keydown "F5"]) = false ∧
        frameActive (run (fun _ => Option.none) initialState
          [Event.clickExample "google.com", Event.frameError, Event.keydown "F5"]) = true)) :=
  ⟨by decide, by decide,
    placeholder_xor_frame (fun _ => Option.none) initialState
      [Event.clickExample "google.com", Event.frameError, Event.keydown "F5"]
      (by decide) (by decide)⟩


theorem notifications_foldl_loaded (k : Nat) (st : Simulator) :
    ((List.replicate k Callback.loaded).foldl runCallback st).notifications =
      st.notifications ++ List.replicate k (successNote "Site carregado com sucesso!") := by
  induction k generalizing st with
  | zero => simp
  | succ k ih =>
      rw [List.replicate_succ, List.foldl_cons, ih, List.replicate_succ]
      simp [runCallback, showNotification_success, hideLoading]

theorem notifications_foldl_failed (k : Nat) (st : Simulator) :
    ((List.replicate k Callback.failed).foldl runCallback st).notifications =
      st.notifications ++
        List.replicate k (errorNote "Erro ao carregar o site. Verifique a URL.") := by
  induction k generalizing st with
  | zero => simp
  | succ k ih =>
      rw [List.replicate_succ, List.foldl_cons, ih, List.replicate_succ]
      simp [runCallback, showNotification_error, hideLoading, showPlaceholder]

theorem handlersFor_showNotification (k : Nat) (st : Simulator) (m t : String)
    (h : HandlersFor k st) : HandlersFor k (showNotification st m t) := by
  simpa [HandlersFor, showNotification] using h

theorem handlersFor_runCallback (k : Nat) (st : Simulator) (cb : Callback)
    (h : HandlersFor k st) : HandlersFor k (runCallback st cb) := by
  cases cb <;>
    simpa [HandlersFor, runCallback, showNotification, hideLoading, showPlaceholder] using h

theorem handlersFor_foldl_runCallback (k : Nat) (cbs : List Callback) (st : Simulator)
    (h : HandlersFor k st) : HandlersFor k (cbs.foldl runCallback st) := by
  induction cbs generalizing st with
  | nil => exact h
  | cons cb cbs ih => exact ih _ (handlersFor_runCallback k st cb h)

theorem handlersFor_refreshPage (k : Nat) (st : Simulator) (h : HandlersFor k st) :
    HandlersFor k (refreshPage st) := by
  unfold refreshPage
  split
  · exact handlersFor_showNotification k _ _ _ (by simpa [HandlersFor] using h)
  · exact handlersFor_showNotification k _ _ _ h

theorem handlersFor_toggleFullscreen (k : Nat) (st : Simulator) (h : HandlersFor k st) :
    HandlersFor k (toggleFullscreen st) := by
  unfold toggleFullscreen
  split <;> simpa [HandlersFor] using h

theorem handlersFor_loadUrl (parseUrl : String → Option String) (k : Nat) (st : Simulator)
    (h : HandlersFor k st) :
    HandlersFor (k + (if loadAccepted parseUrl st = true then 1 else 0))
      (loadUrl parseUrl st) := by
  by_cases h₁ : jsTrim st.urlInputValue = ""
  · rw [loadUrl_of_empty parseUrl st h₁]
    have hacc : loadAccepted parseUrl st = false := by simp [loadAccepted, h₁]
    simpa [hacc] using handlersFor_showNotification k st _ _ h
  · cases h₂ : isValidUrl parseUrl (normalizeUrl (jsTrim st.urlInputValue)) with
    | true =>
        rw [loadUrl_of_valid parseUrl st h₁ h₂]
        have hacc : loadAccepted parseUrl st = true := by simp [loadAccepted, h₁, h₂]
        obtain ⟨hl, he, _, _⟩ := h
        simp only [hacc, if_true]
        refine ⟨?_, ?_, ?_, ?_⟩
        · show st.frameLoadListeners ++ [Callback.loaded] = _
          rw [hl, List.replicate_succ']
        · show st.frameErrorListeners ++ [Callback.failed] = _
          rw [he, List.replicate_succ']
        · simp
        · simp
    | false =>
        rw [loadUrl_of_invalid parseUrl st h₁ h₂]
        have hacc : loadAccepted parseUrl st = false := by simp [loadAccepted, h₂]
        simpa [hacc] using handlersFor_showNotification k st _ _ h

theorem handlersFor_step (parseUrl : String → Option String) (k : Nat) (st : Simulator)
    (e : Event) (h : HandlersFor k st) :
    HandlersFor (k + acceptedBy parseUrl st e) (step parseUrl st e) := by
  cases e with
  | typeUrl text => simpa [step, acceptedBy, HandlersFor] using h
  | clickLoad => exact handlersFor_loadUrl parseUrl k st h
  | keypressUrl key =>
      by_cases hk : key = "Enter"
      · simpa [step, acceptedBy, hk] using handlersFor_loadUrl parseUrl k st h
      · simpa [step, acceptedBy, hk] using h
  | clickExample url =>
      exact handlersFor_loadUrl parseUrl k { st with urlInputValue := url }
        (by simpa [HandlersFor] using h)
  | clickRefresh => exact handlersFor_refreshPage k st h
  | clickFullscreen => exact handlersFor_toggleFullscreen k st h
  | keydown key =>
      simp only [step, handleKeyboard, acceptedBy, Nat.add_zero]
      split
      · exact handlersFor_refreshPage k st h
      · split
        · exact handlersFor_toggleFullscreen k st h
        · exact h
  | frameLoad => exact handlersFor_foldl_runCallback k _ st h
  | frameError => exact handlersFor_foldl_runCallback k _ st h
  | fullscreenLeft => simpa [step, acceptedBy, HandlersFor] using h

theorem handlersFor_run (parseUrl : String → Option String) (events : List Event) (k : Nat)
    (st : Simulator) (h : HandlersFor k st) :
    HandlersFor (k + acceptedLoads parseUrl st events) (run parseUrl st events) := by
  induction events generalizing k st with
  | nil => exact h
  | cons e es ih =>
      have h' := ih (k + acceptedBy parseUrl st e) (step parseUrl st e)
        (handlersFor_step parseUrl k st e h)
      have hrun : run parseUrl st (e :: es) = run parseUrl (step parseUrl st e) es := rfl
      rw [hrun]
      simpa [acceptedLoads, Nat.add_assoc] using h'

theorem loadHandlers_of_handlersFor (n : Nat) (st : Simulator) (h : HandlersFor n st) :
    loadHandlers st = List.replicate (handlerRuns n) Callback.loaded ∧
    errorHandlers st = List.replicate (handlerRuns n) Callback.failed := by
  obtain ⟨hl, he, ho, hr⟩ := h
  cases n with
  | zero => simp [loadHandlers, errorHandlers, handlerRuns, hl, he, ho, hr]
  | succ n =>
      simp [loadHandlers, errorHandlers, handlerRuns, hl, he, ho, hr, List.replicate_succ]

/-- C5 (as the code has it). Take any history of events (loads, signals,
refreshes, toggles, key presses, in any order) from a state with no frame
handlers, and let `n` be the number of accepted `loadUrl` calls in it. The state
reached holds `n + 1` handlers per signal when `n ≥ 1` (the property handler
and one listener per accepted call; none when `n = 0`), and the next load signal
runs the completion handling once for each of them, appending that many success
notifications; likewise the next error signal appends that many error
notifications. -/
theorem completion_runs_once_per_handler (parseUrl : String → Option String)
    (st : Simulator) (events : List Event)
    (hload : st.frameOnload = Option.none ∧ st.frameLoadListeners = [])
    (herror : st.frameOnerror = Option.none ∧ st.frameErrorListeners = []) :
    loadHandlers (run parseUrl st events) =
      List.replicate (handlerRuns (acceptedLoads parseUrl st events)) Callback.loaded ∧
    errorHandlers (run parseUrl st events) =
      List.replicate (handlerRuns (acceptedLoads parseUrl st events)) Callback.failed ∧
    (dispatchLoad (run parseUrl st events)).notifications =
      (run parseUrl st events).notifications ++
        List.replicate (handlerRuns (acceptedLoads parseUrl st events))
          (successNote "Site carregado com sucesso!") ∧
    (dispatchError (run parseUrl st events)).notifications =
      (run parseUrl st events).notifications ++
        List.replicate (handlerRuns (acceptedLoads parseUrl st events))
          (errorNote "Erro ao carregar o site. Verifique a URL.") ∧
    (1 ≤ acceptedLoads parseUrl st events →
      handlerRuns (acceptedLoads parseUrl st events) = acceptedLoads parseUrl st events + 1) := by
  have h0 : HandlersFor 0 st := by
    simp [HandlersFor, hload.1, hload.2, herror.1, herror.2]
  have hn := handlersFor_run parseUrl events 0 st h0
  rw [Nat.zero_add] at hn
  obtain ⟨hl, he⟩ := loadHandlers_of_handlersFor _ _ hn
  refine ⟨hl, he, ?_, ?_, ?_⟩
  · rw [dispatchLoad, hl, notifications_foldl_loaded]
  · rw [dispatchError, he, notifications_foldl_failed]
  · intro h
    have hne : acceptedLoads parseUrl st events ≠ 0 := by omega
    simp [handlerRuns, hne]

theorem interleaved_history_witness :
    (initialState.frameOnload = Option.none ∧ initialState.frameLoadListeners = []) ∧
    (initialState.frameOnerror = Option.none ∧ initialState.frameErrorListeners = []) ∧
    acceptedLoads (fun _ => Option.none) initialState
      [Event.clickExample "google.com", Event.frameLoad, Event.clickRefresh,
        Event.clickExample "https://example.com", Event.frameLoad] = 2 ∧
    loadHandlers (run (fun _ => Option.none) initialState
      [Event.clickExample "google.com", Event.frameLoad, Event.clickRefresh,
        Event.clickExample "https://example.com", Event.frameLoad]) =
      [Callback.loaded, Callback.loaded, Callback.loaded] ∧
    (dispatchError (run (fun _ => Option.none) initialState
      [Event.clickExample "google.com", Event.frameLoad, Event.clickRefresh,
        Event.clickExample "https://example.com", Event.frameLoad])).notifications =
      (run (fun _ => Option.none) initialState
        [Event.clickExample "google.com", Event.frameLoad, Event.clickRefresh,
          Event.clickExample "https://example.com", Event.frameLoad]).notifications ++
        List.replicate 3 (errorNote "Erro ao carregar o site. Verifique a URL.") ∧
    handlerRuns 2 = 2 + 1 :=
  have h := completion_runs_once_per_handler (fun _ => Option.none) initialState
    [Event.clickExample "google.com", Event.frameLoad, Event.clickRefresh,
      Event.clickExample "https://example.com", Event.frameLoad] (by decide) (by decide)
  ⟨by decide, by decide, by decide, h.1, h.2.2.2.1, h.2.2.2.2 (by decide)⟩

/-- C5 fails as stated: after a single accepted `loadUrl`, one load signal runs
the completion handling twice and appends two success notifications, and one
error signal appends two error notifications. -/
theorem load_signal_handled_twice :
    isValidUrl (fun u => if u = "https://google.com" then some "https:" else Option.none)
      (normalizeUrl (jsTrim "google.com")) = true ∧
    loadHandlers (loadUrl
      (fun u => if u = "https://google.com" then some "https:" else Option.none)
      { initialState with urlInputValue := "google.com" }) =
        [Callback.loaded, Callback.loaded] ∧
    (dispatchLoad (loadUrl
      (fun u => if u = "https://google.com" then some "https:" else Option.none)
      { initialState with urlInputValue := "google.com" })).notifications =
        [successNote "Site carregado com sucesso!", successNote "Site carregado com sucesso!"] ∧
    (dispatchError (loadUrl
      (fun u => if u = "https://google.com" then some "https:" else Option.none)
      { initialState with urlInputValue := "google.com" })).notifications =
        [errorNote "Erro ao carregar o site. Verifique a URL.",
          errorNote "Erro ao carregar o site. Verifique a URL."] := by
  decide

/-- C6. With `currentUrl` set, one run of the error callback puts the icon back
to idle (`bi-arrow-right` present, spinner classes absent), appends one error
notification, shows the placeholder and removes `active` from the frame, and
leaves `currentUrl` and the frame source alone; a following `refreshPage`
assigns that same `currentUrl` to the frame. -/
theorem error_callback_reverts_keeps_url (st : Simulator) (hset : st.currentUrl ≠ "") :
    "bi-arrow-right" ∈ (runCallback st Callback.failed).loadIconClasses ∧
    "bi-arrow-clockwise" ∉ (runCallback st Callback.failed).loadIconClasses ∧
    "animate-spin-slow" ∉ (runCallback st Callback.failed).loadIconClasses ∧
    (runCallback st Callback.failed).notifications =
      st.notifications ++ [errorNote "Erro ao carregar o site. Verifique a URL."] ∧
    (runCallback st Callback.failed).placeholderDisplay = "flex" ∧
    placeholderVisible (runCallback st Callback.failed) = true ∧
    frameActive (runCallback st Callback.failed) = false ∧
    (runCallback st Callback.failed).currentUrl = st.currentUrl ∧
    (runCallback st Callback.failed).frameSrc = st.frameSrc ∧
    (refreshPage (runCallback st Callback.failed)).frameSrc = st.currentUrl ∧
    (refreshPage (runCallback st Callback.failed)).currentUrl = st.currentUrl := by
  simp [runCallback, showNotification_error, showNotification_success, hideLoading,
    showPlaceholder, refreshPage, placeholderVisible, frameActive, mem_classListAdd,
    mem_classListRemove, hset]

theorem failed_google_witness :
    (loadUrl (fun _ => Option.none)
      { initialState with urlInputValue := "google.com" }).currentUrl ≠ "" ∧
    (refreshPage (runCallback (loadUrl (fun _ => Option.none)
      { initialState with urlInputValue := "google.com" }) Callback.failed)).frameSrc =
        "https://google.com" ∧
    placeholderVisible (runCallback (loadUrl (fun _ => Option.none)
      { initialState with urlInputValue := "google.com" }) Callback.failed) = true :=
  have h := error_callback_reverts_keeps_url (loadUrl (fun _ => Option.none)
    { initialState with urlInputValue := "google.com" }) (by decide)
  ⟨by decide, h.2.2.2.2.2.2.2.2.2.1, h.2.2.2.2.2.1⟩

/-- C7. With a non-empty `currentUrl`, `refreshPage` (also when reached as a
click, under any URL parser, whatever `isValidUrl` would answer on `currentUrl`)
assigns `currentUrl` to the frame source, leaves everything else including
`currentUrl` alone and appends one success notification "Página atualizada!".
An accepted `loadUrl` of "https://example.com" followed by `refreshPage`
leaves the frame source at "https://example.com". -/
theorem refreshPage_reassigns_currentUrl (st : Simulator) (hset : st.currentUrl ≠ "") :
    refreshPage st =
      { st with
          frameSrc := st.currentUrl
          notifications := st.notifications ++ [successNote "Página atualizada!"] } ∧
    (∀ parseUrl : String → Option String,
      step parseUrl st Event.clickRefresh = refreshPage st ∧
      step parseUrl st (Event.keydown "F5") = refreshPage st) ∧
    (∀ parseUrl : String → Option String,
      isValidUrl parseUrl "https://example.com" = true →
      (refreshPage (loadUrl parseUrl
        { st with urlInputValue := "https://example.com" })).frameSrc =
          "https://example.com" ∧
      (refreshPage (loadUrl parseUrl
        { st with urlInputValue := "https://example.com" })).currentUrl =
          "https://example.com") := by
  refine ⟨?_, ?_, ?_⟩
  · simp [refreshPage, hset, showNotification_success]
  · intro parseUrl
    exact ⟨rfl, rfl⟩
  · intro parseUrl hv
    have ht : jsTrim "https://example.com" = "https://example.com" := by decide
    have hn : normalizeUrl "https://example.com" = "https://example.com" := by decide
    have hload := loadUrl_of_valid parseUrl { st with urlInputValue := "https://example.com" }
      (by show jsTrim "https://example.com" ≠ ""; decide)
      (by show isValidUrl parseUrl (normalizeUrl (jsTrim "https://example.com")) = true
          rw [ht, hn]; exact hv)
    rw [hload]
    simp only [refreshPage, ht, hn]
    simp [showNotification_success]

theorem refresh_example_witness :
    ({ initialState with currentUrl := "https://example.com" } : Simulator).currentUrl ≠ "" ∧
    (refreshPage { initialState with currentUrl := "https://example.com" }).frameSrc =
      "https://example.com" ∧
    isValidUrl (fun _ => some "https:") "https://example.com" = true ∧
    (refreshPage (loadUrl (fun _ => some "https:")
        { initialState with urlInputValue := "https://example.com" })).frameSrc =
      "https://example.com" :=
  ⟨by decide,
    congrArg Simulator.frameSrc (refreshPage_reassigns_currentUrl
      { initialState with currentUrl := "https://example.com" } (by decide)).1,
    by decide,
    ((refreshPage_reassigns_currentUrl
      { initialState with currentUrl := "https://example.com" } (by decide)).2.2
        (fun _ => some "https:") (by decide)).1⟩

/-- C8. With an empty `currentUrl`, `refreshPage` appends exactly one error
notification "Nenhuma URL carregada para atualizar" and changes no other field. -/
theorem refreshPage_without_url (st : Simulator) (hempty : st.currentUrl = "") :
    refreshPage st =
      { st with notifications :=
          st.notifications ++ [errorNote "Nenhuma URL carregada para atualizar"] } := by
  simp [refreshPage, hempty, showNotification_error]

theorem refresh_initial_witness :
    initialState.currentUrl = "" ∧
    refreshPage initialState =
      { initialState with notifications :=
          [errorNote "Nenhuma URL carregada para atualizar"] } :=
  ⟨rfl, refreshPage_without_url initialState rfl⟩

/-! ## Fullscreen toggle and the fallback pattern -/

/-- C9 fails as stated: once the document has left fullscreen by itself, the
control still shows the exit markup; two further toggles leave it showing the
enter markup, not the value it had before them. -/
theorem toggleFullscreen_twice_stale_label :
    (run (fun _ => Option.none) initialState
      [Event.clickFullscreen, Event.fullscreenLeft]).fullscreenBtnHTML = exitFullscreenMarkup ∧
    (toggleFullscreen (toggleFullscreen (run (fun _ => Option.none) initialState
      [Event.clickFullscreen, Event.fullscreenLeft]))).fullscreenBtnHTML =
        enterFullscreenMarkup ∧
    (toggleFullscreen (toggleFullscreen (run (fun _ => Option.none) initialState
      [Event.clickFullscreen, Event.fullscreenLeft]))).fullscreenBtnHTML ≠
      (run (fun _ => Option.none) initialState
        [Event.clickFullscreen, Event.fullscreenLeft]).fullscreenBtnHTML := by
  decide

/-- C9 (as the code has it). When the markup of the control agrees with the
fullscreen state of the document (enter markup when not fullscreen, exit markup
when fullscreen), two successive calls of `toggleFullscreen` restore the markup,
and indeed the whole state. -/
theorem toggleFullscreen_twice_restores (st : Simulator)
    (hagree : st.fullscreenBtnHTML =
      if st.fullscreenElement = true then exitFullscreenMarkup else enterFullscreenMarkup) :
    (toggleFullscreen (toggleFullscreen st)).fullscreenBtnHTML = st.fullscreenBtnHTML ∧
    toggleFullscreen (toggleFullscreen st) = st := by
  cases hfs : st.fullscreenElement with
  | false =>
      have hst : toggleFullscreen (toggleFullscreen st) = st := by
        cases st
        simp_all [toggleFullscreen]
      exact ⟨by rw [hst], hst⟩
  | true =>
      have hst : toggleFullscreen (toggleFullscreen st) = st := by
        cases st
        simp_all [toggleFullscreen]
      exact ⟨by rw [hst], hst⟩

theorem toggle_agreeing_witness :
    (toggleFullscreen initialState).fullscreenBtnHTML =
      (if (toggleFullscreen initialState).fullscreenElement = true then exitFullscreenMarkup
        else enterFullscreenMarkup) ∧
    (toggleFullscreen (toggleFullscreen (toggleFullscreen initialState))).fullscreenBtnHTML =
      exitFullscreenMarkup :=
  ⟨by decide,
    (toggleFullscreen_twice_restores (toggleFullscreen initialState) (by decide)).1⟩

/-- C10 fails as stated: on "example.technology", where strict parsing fails
(the parser answers `none`), the pattern matches and `isValidUrl` answers true,
although the last dot-separated label, "technology", has ten characters. -/
theorem isValidUrl_accepts_long_final_label :
    Regex.test urlPattern "example.technology".data = true ∧
    isValidUrl (fun _ => Option.none) "example.technology" = true ∧
    finalLabel "example.technology".data = "technology".data ∧
    domainLike "example.technology".data = false := by
  decide

/-- C10 (as the code has it). When strict parsing fails, `isValidUrl` answers
true exactly when the whole string is an optional `http://` or `https://`, then
one or more characters of `[\da-z\.-]`, a dot, 2 to 6 characters of `[a-z\.]`,
then any number of characters of `[\/\w \.-]`; every other such string is
rejected. -/
theorem isValidUrl_fallback_shape (parseUrl : String → Option String) (s : String)
    (hfail : parseUrl s = Option.none) :
    (isValidUrl parseUrl s = true ↔ PatternShape s.data) ∧
    (¬ PatternShape s.data → isValidUrl parseUrl s = false) := by
  have h : isValidUrl parseUrl s = true ↔ PatternShape s.data := by
    simp only [isValidUrl, hfail]
    exact test_urlPattern_iff s.data
  refine ⟨h, fun hn => ?_⟩
  cases hv : isValidUrl parseUrl s with
  | false => rfl
  | true => exact absurd (h.mp hv) hn

theorem fallback_examples_witness :
    (isValidUrl (fun _ => Option.none) "https://not a url!!" = false ∧
      ¬ PatternShape "https://not a url!!".data) ∧
    (isValidUrl (fun _ => Option.none) "example.technology" = true ∧
      PatternShape "example.technology".data) :=
  ⟨⟨by decide, fun hp =>
      absurd ((isValidUrl_fallback_shape (fun _ => Option.none) "https://not a url!!" rfl).1.mpr hp)
        (by decide)⟩,
    ⟨by decide,
      (isValidUrl_fallback_shape (fun _ => Option.none) "example.technology" rfl).1.mp
        (by decide)⟩⟩

end MobileSimulator
